import Mathlib

/-!
Shallow embedding of the HIBID auction-scraper (src/HIBID.py) and
verification of its specification claims.

External collaborators (HTTP transport, BeautifulSoup element selection)
are modelled as oracles: a page fetch yields either a transport error or a
status code together with the already-selected document pieces (company
name anchor text, first paragraph text, lot-title element texts); a price
search yields either a transport error or the list of matched price
element texts.  Python floats are modelled as rationals, `round(x, 2)` as
`round2`, and Python's stable `list.sort` / pandas `sort_values` as stable
insertion sorts over the exact keys the source uses.
-/

namespace HIBID

/-- Nearest integer to `q` (ties rounded up): `⌊q + 1/2⌋` computed on the
numerator and denominator so that it evaluates by kernel reduction. -/
def roundHalfUp (q : ℚ) : ℤ := Int.fdiv (2 * q.num + q.den) (2 * q.den)

/-- Models Python `round(x, 2)`: round to two decimal places.  (The
direction of half-way ties is immaterial to every claim below.) -/
def round2 (q : ℚ) : ℚ := Rat.divInt (roundHalfUp (q * 100)) 100

instance {ε α : Type} [DecidableEq ε] [DecidableEq α] : DecidableEq (Except ε α) := fun a b =>
  match a, b with
  | .error e, .error f => decidable_of_iff (e = f) (by simp)
  | .error _, .ok _ => isFalse (by simp)
  | .ok _, .error _ => isFalse (by simp)
  | .ok x, .ok y => decidable_of_iff (x = y) (by simp)

/-- Value of a list of decimal digit characters. -/
def digitsToNat (ds : List Char) : Nat :=
  ds.foldl (fun n c => 10 * n + (c.toNat - 48)) 0

/-- Splits off the maximal leading run of digit characters. -/
def takeDigits : List Char → List Char × List Char
  | [] => ([], [])
  | c :: cs =>
    if c.isDigit then
      let r := takeDigits cs
      (c :: r.1, r.2)
    else ([], c :: cs)

/-- First match of the regex `\d+(\.\d+)?` in a character list, as a
rational: models `re.search(r'\d+(\.\d+)?', text)` followed by `float`. -/
def scanNumber : List Char → Option ℚ
  | [] => none
  | c :: cs =>
    if c.isDigit then
      let d := takeDigits (c :: cs)
      match d.2 with
      | '.' :: c2 :: cs2 =>
        if c2.isDigit then
          let f := takeDigits (c2 :: cs2)
          some ((digitsToNat d.1 : ℚ) + (digitsToNat f.1 : ℚ) / ((10 : ℚ) ^ f.1.length))
        else some (digitsToNat d.1 : ℚ)
      | _ => some (digitsToNat d.1 : ℚ)
    else scanNumber cs

/-- Numeric extraction from one price element's text (HIBID.py lines 46
and 64). -/
def parsePrice (s : String) : Option ℚ := scanNumber s.data

/-- A transport-layer failure raised by `requests`
(`requests.exceptions.RequestException`). -/
inductive TransportError where
  | mk (msg : String)
deriving Repr, DecidableEq

/-- `search_yahoo` (HIBID.py lines 36-52).  The fetch outcome carries the
texts of the elements matched by the price-class pattern.  A transport
error is caught and mapped to `none`; otherwise the mean of all
successfully parsed prices is returned, `none` when no element parses. -/
def search_yahoo (page : Except TransportError (List String)) : Option ℚ :=
  match page with
  | .error _ => none
  | .ok els =>
    let prices := els.filterMap parsePrice
    if prices.isEmpty then none
    else some (round2 (prices.sum / (prices.length : ℚ)))

/-- The eBay price-element loop (HIBID.py lines 62-69): appends each
parsed price; on a parse failure with no price collected so far it
returns early with `none` (line 68-69). -/
def ebayScan : List String → List ℚ → Option (List ℚ)
  | [], prices => some prices
  | e :: rest, prices =>
    match parsePrice e with
    | some p => ebayScan rest (prices ++ [p])
    | none => if prices.isEmpty then none else ebayScan rest prices

/-- `search_ebay` (HIBID.py lines 54-74). -/
def search_ebay (page : Except TransportError (List String)) : Option ℚ :=
  match page with
  | .error _ => none
  | .ok els =>
    match ebayScan els [] with
    | none => none
    | some prices =>
      if prices.isEmpty then none
      else some (round2 (prices.sum / (prices.length : ℚ)))

/-- Network environment for the two price sources: per title, the outcome
of each marketplace search (price-element texts, or a transport error). -/
structure PriceEnv where
  ebayPage : String → Except TransportError (List String)
  yahooPage : String → Except TransportError (List String)

/-- `scrape_prices` (HIBID.py lines 31-34). -/
def scrape_prices (env : PriceEnv) (title : String) : Option ℚ × Option ℚ :=
  (search_ebay (env.ebayPage title), search_yahoo (env.yahooPage title))

/-- One row of `items_data` (HIBID.py lines 123-126). -/
structure ItemRecord where
  title : String
  ebay_price : Option ℚ
  yahoo_price : Option ℚ
  weighted_average_price : Option ℚ
deriving Repr, DecidableEq

/-- Weighted-average computation (HIBID.py lines 112-121):
`weight_yahoo, weight_ebay = 0.4, 0.6`. -/
def weightedAverage (ebay_price yahoo_price : Option ℚ) : Option ℚ :=
  match ebay_price, yahoo_price with
  | some e, some y => some (round2 (y * 0.4 + e * 0.6))
  | some e, none => some e
  | none, some y => some y
  | none, none => none

/-- Per-page enrichment (HIBID.py lines 107-127): one record per stripped
title, in submission order (futures are consumed by `zip` in submission
order). -/
def enrichPage (env : PriceEnv) (titles : List String) : List ItemRecord :=
  titles.map fun t =>
    let q := scrape_prices env t
    { title := t, ebay_price := q.1, yahoo_price := q.2,
      weighted_average_price := weightedAverage q.1 q.2 }

/-- Order on estimates used by the `list.sort` call (HIBID.py line 142):
key `-inf` for `None` else `-value`, with `reverse=True`; net effect is
ascending by value with absent estimates last. -/
def optLeAsc : Option ℚ → Option ℚ → Prop
  | none, none => True
  | some _, none => True
  | none, some _ => False
  | some x, some y => x ≤ y

instance : DecidableRel optLeAsc := fun x y =>
  match x, y with
  | none, none => isTrue trivial
  | some _, none => isTrue trivial
  | none, some _ => isFalse fun h => h
  | some x, some y => inferInstanceAs (Decidable (x ≤ y))

/-- Order used by the pandas `sort_values` call (HIBID.py line 146):
descending by value, absent (`NaN`) placed last. -/
def optLeDesc : Option ℚ → Option ℚ → Prop
  | none, none => True
  | some _, none => True
  | none, some _ => False
  | some x, some y => y ≤ x

instance : DecidableRel optLeDesc := fun x y =>
  match x, y with
  | none, none => isTrue trivial
  | some _, none => isTrue trivial
  | none, some _ => isFalse fun h => h
  | some x, some y => inferInstanceAs (Decidable (y ≤ x))

/-- Record order for the in-place `list.sort` of line 142. -/
def sortKeyLE (a b : ItemRecord) : Prop :=
  optLeAsc a.weighted_average_price b.weighted_average_price

instance : DecidableRel sortKeyLE := fun a b =>
  inferInstanceAs (Decidable (optLeAsc a.weighted_average_price b.weighted_average_price))

/-- Record order for the pandas `sort_values` of line 146. -/
def pandasLE (a b : ItemRecord) : Prop :=
  optLeDesc a.weighted_average_price b.weighted_average_price

instance : DecidableRel pandasLE := fun a b =>
  inferInstanceAs (Decidable (optLeDesc a.weighted_average_price b.weighted_average_price))

theorem optLeDesc_total : ∀ x y : Option ℚ, optLeDesc x y ∨ optLeDesc y x
  | none, none => Or.inl trivial
  | some _, none => Or.inl trivial
  | none, some _ => Or.inr trivial
  | some x, some y => le_total y x

theorem optLeDesc_trans : ∀ x y z : Option ℚ, optLeDesc x y → optLeDesc y z → optLeDesc x z
  | none, none, none, _, _ => trivial
  | none, none, some _, _, h => h.elim
  | none, some _, _, h, _ => h.elim
  | some _, none, none, _, _ => trivial
  | some _, none, some _, _, h => h.elim
  | some _, some _, none, _, _ => trivial
  | some _, some _, some _, h1, h2 => le_trans h2 h1

instance : IsTotal ItemRecord pandasLE := ⟨fun _ _ => optLeDesc_total _ _⟩

instance : IsTrans ItemRecord pandasLE := ⟨fun _ _ _ => optLeDesc_trans _ _ _⟩

/-- `save_items_to_excel` (HIBID.py lines 140-147), restricted to its
effect on record order.  First component: the accumulated list after the
in-place `items_data.sort` of line 142.  Second component: the row order
of the DataFrame written to disk after the `sort_values` of line 146.
Both Python sorts are stable; they are modelled as insertion sorts. -/
def save_items_to_excel (items : List ItemRecord) : List ItemRecord × List ItemRecord :=
  let mutated := List.insertionSort sortKeyLE items
  let snapshot := List.insertionSort pandasLE mutated
  (mutated, snapshot)

/-- Models Python `str.strip()`: drop leading and trailing whitespace. -/
def pyStrip (s : String) : String :=
  String.mk (((s.data.dropWhile Char.isWhitespace).reverse.dropWhile Char.isWhitespace).reverse)

/-- Models `str.replace('/', '_')` (HIBID.py line 98). -/
def replaceSlash (s : String) : String :=
  String.mk (s.data.map fun c => if c = '/' then '_' else c)

/-- Characters skipped by the regex class `\s*`. -/
def dropSpaces (cs : List Char) : List Char := cs.dropWhile fun c => c.isWhitespace

/-- Exactly `n` leading digit characters, or failure. -/
def getDigits : Nat → List Char → Option (List Char × List Char)
  | 0, cs => some ([], cs)
  | _ + 1, [] => none
  | n + 1, c :: cs =>
    if c.isDigit then (getDigits n cs).map fun r => (c :: r.1, r.2)
    else none

/-- All ways, in backtracking order, to match `\d{1,2}/\d{1,2}/\d{4}` at
the head of the input (matched text, remainder). -/
def matchDateAt (cs : List Char) : List (List Char × List Char) :=
  ([2, 1]).flatMap fun dl =>
    match getDigits dl cs with
    | some (d, '/' :: r2) =>
      ([2, 1]).flatMap fun ml =>
        match getDigits ml r2 with
        | some (m, '/' :: r4) =>
          match getDigits 4 r4 with
          | some (y, _r5) => [(d ++ '/' :: m ++ '/' :: y, _r5)]
          | none => []
        | _ => []
    | _ => []

/-- Match of the full date pattern of HIBID.py line 96 at the head of the
input, returning capture group 2 (the end date). -/
def matchPatternAt : List Char → Option (List Char)
  | 'D' :: 'a' :: 't' :: 'e' :: '(' :: 's' :: ')' :: rest =>
    (matchDateAt (dropSpaces rest)).findSome? fun c =>
      match dropSpaces c.2 with
      | '-' :: r4 =>
        match matchDateAt (dropSpaces r4) with
        | [] => none
        | d2 :: _ => some d2.1
      | _ => none
  | _ => none

/-- `re.search`: first position at which the pattern matches. -/
def searchDatePattern : List Char → Option (List Char)
  | [] => none
  | c :: cs =>
    match matchPatternAt (c :: cs) with
    | some d => some d
    | none => searchDatePattern cs

/-- End-date extraction from the first paragraph's text
(HIBID.py lines 96-97): capture group 2 of the date pattern. -/
def parseEndDate (s : String) : Option String :=
  (searchDatePattern s.data).map fun cs => String.mk cs

/-- Errors that abort the run (uncaught Python exceptions), plus the two
non-exception walk events are handled elsewhere. -/
inductive RunError where
  | transport
  | attributeError
  | nameError
deriving Repr, DecidableEq

/-- The pieces of a fetched auction page that the code reads: text of the
`h2.company-name` anchor (if present), text of the first `p` element (if
present), and the texts of the `lot-title` elements. -/
structure AuctionDoc where
  companyNameEl : Option String
  firstParagraph : Option String
  lotTitles : List String
deriving Repr, DecidableEq

/-- Metadata extraction performed on every loop iteration
(HIBID.py lines 90-98).  A missing element or a failed date match raises
(`AttributeError` on `None`), which aborts the run. -/
def extractMetadata (doc : AuctionDoc) : Except RunError (String × String) :=
  match doc.companyNameEl with
  | none => .error .attributeError
  | some nameEl =>
    match doc.firstParagraph with
    | none => .error .attributeError
    | some para =>
      match parseEndDate (pyStrip para) with
      | none => .error .attributeError
      | some endDate => .ok (pyStrip nameEl, replaceSlash endDate)

/-- `save_path` construction (HIBID.py lines 99-100). -/
def savePathFor (companyName endDate : String) : String :=
  "HIBID_AUCTIONS/" ++ (companyName ++ "_" ++ endDate ++ ".xlsx")

/-- Outcome of `requests.get` for one listing page: an uncaught transport
exception, or a response with a status code and a parsed document. -/
inductive FetchResult where
  | transportError (e : TransportError)
  | response (status : Nat) (doc : AuctionDoc)

/-- State of `scrape_auction_data`'s while-loop: current page number, the
accumulated `items_data`, the local `save_path` (unbound before the first
successful metadata extraction), and the log of workbook writes (path and
row order written). -/
structure WalkState where
  pageNumber : Nat
  itemsData : List ItemRecord
  savePath : Option String
  written : List (String × List ItemRecord)
deriving Repr, DecidableEq

/-- One call of `save_items_to_excel`: mutates `items_data` in place and
records the written file. -/
def doSave (sp : String) (st : WalkState) : WalkState :=
  let r := save_items_to_excel st.itemsData
  { st with itemsData := r.1, written := st.written ++ [(sp, r.2)] }

/-- The unconditional save after the loop (HIBID.py line 137); if no page
ever assigned `save_path`, this raises (unbound local). -/
def finalSave (st : WalkState) : Except RunError WalkState :=
  match st.savePath with
  | none => .error .nameError
  | some sp => .ok (doSave sp st)

/-- Outcome of one while-loop iteration. -/
inductive StepResult where
  | cont (st : WalkState)
  | brk (st : WalkState)
  | fatal (e : RunError)
deriving Repr, DecidableEq

/-- One iteration of the while-loop in `scrape_auction_data`
(HIBID.py lines 80-135), in source order: fetch (an exception propagates,
line 83), non-200 status breaks (lines 86-88), metadata extraction
(lines 90-100, every page), empty lot-title list breaks (lines 102-105),
enrichment of the stripped titles (lines 107-127), save every third page
(lines 129-131), page-number increment (line 135). -/
def loopBody (oracle : Nat → FetchResult) (env : PriceEnv) (st : WalkState) : StepResult :=
  match oracle st.pageNumber with
  | .transportError _ => .fatal .transport
  | .response status doc =>
    if status ≠ 200 then .brk st
    else
      match extractMetadata doc with
      | .error e => .fatal e
      | .ok md =>
        let sp := savePathFor md.1 md.2
        let st1 := { st with savePath := some sp }
        if doc.lotTitles.isEmpty then .brk st1
        else
          let records := enrichPage env (doc.lotTitles.map pyStrip)
          let st2 := { st1 with itemsData := st1.itemsData ++ records }
          let st3 := if st2.pageNumber % 3 == 0 then doSave sp st2 else st2
          .cont { st3 with pageNumber := st3.pageNumber + 1 }

/-- The while-loop with a fuel bound: `none` means the loop was still
running after `fuel` iterations; `some r` is the program outcome (a
propagated exception, or the state after the final save). -/
def walkLoop (oracle : Nat → FetchResult) (env : PriceEnv) :
    Nat → WalkState → Option (Except RunError WalkState)
  | 0, _ => none
  | fuel + 1, st =>
    match loopBody oracle env st with
    | .fatal e => some (.error e)
    | .brk st1 => some (finalSave st1)
    | .cont st1 => walkLoop oracle env fuel st1

/-- Initial state of `scrape_auction_data` (HIBID.py lines 77-78). -/
def initState : WalkState :=
  { pageNumber := 1, itemsData := [], savePath := none, written := [] }

/-- `scrape_auction_data` (HIBID.py lines 76-138). -/
def scrape_auction_data (oracle : Nat → FetchResult) (env : PriceEnv) (fuel : Nat) :
    Option (Except RunError WalkState) :=
  walkLoop oracle env fuel initState

/-! ### Helper lemmas -/

theorem optLeAsc_refl : ∀ x : Option ℚ, optLeAsc x x
  | none => trivial
  | some _ => le_refl _

theorem optLeDesc_refl : ∀ x : Option ℚ, optLeDesc x x
  | none => trivial
  | some _ => le_refl _

theorem filter_orderedInsert_of_neg {α : Type} (r : α → α → Prop) [DecidableRel r]
    (p : α → Bool) (x : α) (hx : p x = false) :
    ∀ l : List α, (l.orderedInsert r x).filter p = l.filter p
  | [] => by simp [List.orderedInsert, hx]
  | y :: ys => by
    simp only [List.orderedInsert]
    split
    · simp [List.filter_cons, hx]
    · simp [List.filter_cons, filter_orderedInsert_of_neg r p x hx ys]

theorem filter_orderedInsert_of_pos {α : Type} (r : α → α → Prop) [DecidableRel r]
    (p : α → Bool) (x : α) (hx : p x = true) (hall : ∀ y, p y = true → r x y) :
    ∀ l : List α, (l.orderedInsert r x).filter p = x :: l.filter p
  | [] => by simp [List.orderedInsert, hx]
  | y :: ys => by
    simp only [List.orderedInsert]
    split
    · simp [List.filter_cons, hx]
    · next h =>
      have hy : p y = false := by
        cases hpy : p y
        · rfl
        · exact absurd (hall y hpy) h
      simp [List.filter_cons, hy, filter_orderedInsert_of_pos r p x hx hall ys]

/-- A stable sort leaves each class of mutually related elements in its
original relative order. -/
theorem filter_insertionSort {α : Type} (r : α → α → Prop) [DecidableRel r]
    (p : α → Bool) (hcls : ∀ x y, p x = true → p y = true → r x y) :
    ∀ l : List α, (List.insertionSort r l).filter p = l.filter p
  | [] => rfl
  | x :: xs => by
    simp only [List.insertionSort]
    cases hx : p x
    · rw [filter_orderedInsert_of_neg r p x hx, filter_insertionSort r p hcls xs]
      simp [List.filter_cons, hx]
    · rw [filter_orderedInsert_of_pos r p x hx (fun y hy => hcls x y hx hy),
        filter_insertionSort r p hcls xs]
      simp [List.filter_cons, hx]

theorem walkLoop_succ (oracle : Nat → FetchResult) (env : PriceEnv) (fuel : Nat)
    (st : WalkState) :
    walkLoop oracle env (fuel + 1) st =
      (match loopBody oracle env st with
       | .fatal e => some (.error e)
       | .brk st1 => some (finalSave st1)
       | .cont st1 => walkLoop oracle env fuel st1) := rfl

theorem walkLoop_mono (oracle : Nat → FetchResult) (env : PriceEnv) :
    ∀ fuel fuel' (st : WalkState) (r : Except RunError WalkState),
      walkLoop oracle env fuel st = some r → fuel ≤ fuel' →
      walkLoop oracle env fuel' st = some r := by
  intro fuel
  induction fuel with
  | zero => intro fuel' st r h _; simp [walkLoop] at h
  | succ n ih =>
    intro fuel' st r h hle
    cases fuel' with
    | zero => omega
    | succ f =>
      rw [walkLoop] at h
      rw [walkLoop]
      cases hb : loopBody oracle env st with
      | fatal e => rw [hb] at h; exact h
      | brk st1 => rw [hb] at h; exact h
      | cont st1 => rw [hb] at h; exact ih f st1 r h (Nat.le_of_succ_le_succ hle)

theorem loopBody_transport (oracle : Nat → FetchResult) (env : PriceEnv) (st : WalkState)
    (e : TransportError) (h : oracle st.pageNumber = .transportError e) :
    loopBody oracle env st = .fatal .transport := by
  unfold loopBody
  rw [h]

theorem loopBody_badStatus (oracle : Nat → FetchResult) (env : PriceEnv) (st : WalkState)
    (status : Nat) (doc : AuctionDoc) (h : oracle st.pageNumber = .response status doc)
    (hs : status ≠ 200) : loopBody oracle env st = .brk st := by
  unfold loopBody
  rw [h]
  dsimp only
  rw [if_pos hs]

theorem loopBody_metadataError (oracle : Nat → FetchResult) (env : PriceEnv) (st : WalkState)
    (doc : AuctionDoc) (e : RunError) (h : oracle st.pageNumber = .response 200 doc)
    (hm : extractMetadata doc = .error e) : loopBody oracle env st = .fatal e := by
  unfold loopBody
  rw [h]
  dsimp only
  rw [if_neg (fun hh => hh rfl), hm]

theorem loopBody_emptyTitles (oracle : Nat → FetchResult) (env : PriceEnv) (st : WalkState)
    (doc : AuctionDoc) (c d : String) (h : oracle st.pageNumber = .response 200 doc)
    (hm : extractMetadata doc = .ok (c, d)) (he : doc.lotTitles = []) :
    loopBody oracle env st = .brk { st with savePath := some (savePathFor c d) } := by
  unfold loopBody
  rw [h]
  dsimp only
  rw [if_neg (fun hh => hh rfl), hm]
  simp [he]

theorem loopBody_nonempty (oracle : Nat → FetchResult) (env : PriceEnv) (st : WalkState)
    (doc : AuctionDoc) (c d : String) (h : oracle st.pageNumber = .response 200 doc)
    (hm : extractMetadata doc = .ok (c, d)) (hne : doc.lotTitles.isEmpty = false) :
    loopBody oracle env st =
      (let sp := savePathFor c d
       let st2 : WalkState :=
         { st with savePath := some sp,
                   itemsData := st.itemsData ++ enrichPage env (doc.lotTitles.map pyStrip) }
       let st3 := if st2.pageNumber % 3 == 0 then doSave sp st2 else st2
       .cont { st3 with pageNumber := st3.pageNumber + 1 }) := by
  unfold loopBody
  rw [h]
  dsimp only
  rw [if_neg (fun hh => hh rfl), hm]
  simp [hne]

theorem loopBody_cont_pageNumber (oracle : Nat → FetchResult) (env : PriceEnv)
    (st st1 : WalkState) (h : loopBody oracle env st = .cont st1) :
    st1.pageNumber = st.pageNumber + 1 := by
  unfold loopBody at h
  cases ho : oracle st.pageNumber with
  | transportError e => rw [ho] at h; cases h
  | response status doc =>
    rw [ho] at h
    dsimp only at h
    split at h
    · cases h
    · cases hm : extractMetadata doc with
      | error e => rw [hm] at h; dsimp only at h; cases h
      | ok md =>
        rw [hm] at h
        dsimp only at h
        split at h
        · cases h
        · injection h with h1
          rw [← h1]
          dsimp only
          split <;> rfl

theorem walkLoop_ok_lastWrite (oracle : Nat → FetchResult) (env : PriceEnv) :
    ∀ fuel (st st1 : WalkState), walkLoop oracle env fuel st = some (.ok st1) →
      ∃ sp, st1.savePath = some sp ∧
        st1.written.getLast? = some (sp, List.insertionSort pandasLE st1.itemsData) := by
  intro fuel
  induction fuel with
  | zero => intro st st1 h; simp [walkLoop] at h
  | succ n ih =>
    intro st st1 h
    rw [walkLoop] at h
    cases hb : loopBody oracle env st with
    | fatal e => rw [hb] at h; simp at h
    | cont stc => rw [hb] at h; exact ih stc st1 h
    | brk stb =>
      rw [hb] at h
      dsimp only at h
      unfold finalSave at h
      cases hsp : stb.savePath with
      | none => rw [hsp] at h; simp at h
      | some sp =>
        rw [hsp] at h
        dsimp only at h
        injection h with h1
        injection h1 with h2
        refine ⟨sp, ?_, ?_⟩
        · rw [← h2]; exact hsp
        · rw [← h2]
          simp [doSave, save_items_to_excel, List.getLast?_concat]

theorem search_yahoo_none_iff (els : List String) :
    search_yahoo (.ok els) = none ↔ ∀ s ∈ els, parsePrice s = none := by
  unfold search_yahoo
  dsimp only
  split
  · next hemp =>
    rw [List.isEmpty_iff, List.filterMap_eq_nil_iff] at hemp
    exact iff_of_true rfl hemp
  · next hemp =>
    constructor
    · intro h; cases h
    · intro hall
      rw [List.isEmpty_iff, List.filterMap_eq_nil_iff] at hemp
      exact absurd hall hemp

theorem search_ebay_none_of_head (e0 : String) (rest : List String)
    (h0 : parsePrice e0 = none) : search_ebay (.ok (e0 :: rest)) = none := by
  unfold search_ebay
  dsimp only
  rw [ebayScan, h0]
  simp

theorem search_ebay_none_of_all (els : List String)
    (hall : ∀ s ∈ els, parsePrice s = none) : search_ebay (.ok els) = none := by
  cases els with
  | nil => rfl
  | cons s rest => exact search_ebay_none_of_head s rest (hall s (by simp))

theorem pandasLE_of_keyEq {v : Option ℚ} (x y : ItemRecord)
    (hx : decide (x.weighted_average_price = v) = true)
    (hy : decide (y.weighted_average_price = v) = true) : pandasLE x y := by
  unfold pandasLE
  rw [of_decide_eq_true hx, of_decide_eq_true hy]
  exact optLeDesc_refl v

theorem sortKeyLE_of_keyEq {v : Option ℚ} (x y : ItemRecord)
    (hx : decide (x.weighted_average_price = v) = true)
    (hy : decide (y.weighted_average_price = v) = true) : sortKeyLE x y := by
  unfold sortKeyLE
  rw [of_decide_eq_true hx, of_decide_eq_true hy]
  exact optLeAsc_refl v

/-! ### Claim theorems -/

/-- Claim C1: every record produced by the enrichment pipeline has a
weighted estimate present iff at least one of its eBay (quoteA) or Yahoo
(quoteB) quotes is present; with both present it is
quoteA*0.6 + quoteB*0.4 rounded to two decimals, with exactly one present
it equals that quote. -/
theorem C1_weightedEstimate (env : PriceEnv) (titles : List String) (r : ItemRecord)
    (hr : r ∈ enrichPage env titles) :
    (r.weighted_average_price.isSome ↔ (r.ebay_price.isSome ∨ r.yahoo_price.isSome)) ∧
    r.weighted_average_price =
      (match r.ebay_price, r.yahoo_price with
       | some a, some b => some (round2 (a * 0.6 + b * 0.4))
       | some a, none => some a
       | none, some b => some b
       | none, none => none) := by
  obtain ⟨t, _, rfl⟩ := List.mem_map.mp hr
  cases he : search_ebay (env.ebayPage t) <;> cases hy : search_yahoo (env.yahooPage t) <;>
    simp [scrape_prices, weightedAverage, he, hy]
  rw [add_comm]

def c1env : PriceEnv :=
  { ebayPage := fun _ => .ok ["$100"], yahooPage := fun _ => .ok ["$50"] }

/-- Witness for C1: a concrete enriched record with both quotes present. -/
theorem C1_weightedEstimate_witness :
    ({ title := "w", ebay_price := some 100, yahoo_price := some 50,
       weighted_average_price := some 80 } : ItemRecord).weighted_average_price =
      some (round2 ((100 : ℚ) * 0.6 + 50 * 0.4)) :=
  (C1_weightedEstimate c1env ["w"] _ (by with_unfolding_all decide)).2

/-- Claim C2: the snapshot handed to the report writer is sorted by
weighted estimate descending with every absent-estimate record after
every present-estimate record (the `Sorted pandasLE` conjunct), contains
exactly the accumulated records (the `Perm` conjunct), and the sort is
stable: records with any fixed estimate keep their relative accumulation
order (the `filter` conjunct). -/
theorem C2_snapshotSorted (items : List ItemRecord) :
    ((save_items_to_excel items).2).Sorted pandasLE ∧
    ((save_items_to_excel items).2).Perm items ∧
    ∀ v : Option ℚ,
      ((save_items_to_excel items).2).filter
          (fun r => decide (r.weighted_average_price = v)) =
        items.filter (fun r => decide (r.weighted_average_price = v)) := by
  refine ⟨List.sorted_insertionSort pandasLE _,
    (List.perm_insertionSort pandasLE _).trans (List.perm_insertionSort sortKeyLE items),
    fun v => ?_⟩
  rw [show (save_items_to_excel items).2 =
        List.insertionSort pandasLE (List.insertionSort sortKeyLE items) from rfl]
  rw [filter_insertionSort pandasLE _ (fun x y hx hy => pandasLE_of_keyEq x y hx hy),
    filter_insertionSort sortKeyLE _ (fun x y hx hy => sortKeyLE_of_keyEq x y hx hy)]

/-- Claim C3: the per-page enrichment yields exactly one record per
submitted title, in submission order, each carrying its input title. -/
theorem C3_noDropNoDup (env : PriceEnv) (titles : List String) :
    (enrichPage env titles).map ItemRecord.title = titles ∧
    (enrichPage env titles).length = titles.length := by
  constructor
  · unfold enrichPage
    rw [List.map_map]
    exact List.map_id titles
  · simp [enrichPage]

/-- Claim C7: each price source maps a transport failure, an empty result
page, and an all-malformed result page to an absent quote rather than an
error, and an item whose both lookups fail transport-wise still yields a
record with its title and all fields absent. -/
theorem C7_absorbFailures (e : TransportError) (els : List String)
    (hall : ∀ s ∈ els, parsePrice s = none) :
    search_yahoo (.error e) = none ∧ search_ebay (.error e) = none ∧
    search_yahoo (.ok []) = none ∧ search_ebay (.ok []) = none ∧
    search_yahoo (.ok els) = none ∧ search_ebay (.ok els) = none ∧
    ∀ title : String,
      enrichPage { ebayPage := fun _ => .error e, yahooPage := fun _ => .error e } [title] =
        [{ title := title, ebay_price := none, yahoo_price := none,
           weighted_average_price := none }] := by
  refine ⟨rfl, rfl, rfl, rfl, (search_yahoo_none_iff els).mpr hall,
    search_ebay_none_of_all els hall, fun title => rfl⟩

/-- Witness for C7: both sources return absent on a page whose only price
element has no digits. -/
theorem C7_absorbFailures_witness :
    search_yahoo (.ok ["N/A"]) = none ∧ search_ebay (.ok ["N/A"]) = none := by
  have h := C7_absorbFailures ⟨"timeout"⟩ ["N/A"] (by with_unfolding_all decide)
  exact ⟨h.2.2.2.2.1, h.2.2.2.2.2.1⟩

/-- Claim C10: the eBay source short-circuits: a page whose first price
element fails to parse yields absent regardless of the remaining
elements; the Yahoo source skips a malformed leading element and returns
absent only when every element fails to parse. -/
theorem C10_shortCircuitAsymmetry (e0 : String) (rest els : List String)
    (h0 : parsePrice e0 = none) :
    search_ebay (.ok (e0 :: rest)) = none ∧
    search_yahoo (.ok (e0 :: rest)) = search_yahoo (.ok rest) ∧
    (search_yahoo (.ok els) = none ↔ ∀ s ∈ els, parsePrice s = none) := by
  refine ⟨search_ebay_none_of_head e0 rest h0, ?_, search_yahoo_none_iff els⟩
  unfold search_yahoo
  dsimp only
  rw [List.filterMap_cons_none h0]

/-- Witness for C10: with a malformed first element, eBay is absent while
Yahoo still scans the rest. -/
theorem C10_shortCircuitAsymmetry_witness :
    search_ebay (.ok ["N/A", "$5"]) = none ∧
    search_yahoo (.ok ["N/A", "$5"]) = search_yahoo (.ok ["$5"]) := by
  have h := C10_shortCircuitAsymmetry "N/A" ["$5"] [] (by with_unfolding_all decide)
  exact ⟨h.1, h.2.1⟩

/-- Claim C4: the walk stops at the first successfully fetched page whose
item list is empty; with page 3 empty (success with zero lots), the walk
reaches a result within 3 iterations regardless of what pages 1 and 2
contain, and more fuel never changes the outcome. -/
theorem C4_terminatesOnEmpty (oracle : Nat → FetchResult) (env : PriceEnv)
    (doc3 : AuctionDoc) (h3 : oracle 3 = .response 200 doc3)
    (hempty : doc3.lotTitles = []) :
    (scrape_auction_data oracle env 3).isSome ∧
    ∀ fuel, 3 ≤ fuel → scrape_auction_data oracle env fuel = scrape_auction_data oracle env 3 := by
  have hterm : ∀ (st : WalkState) (fuel : Nat), st.pageNumber = 3 →
      (walkLoop oracle env (fuel + 1) st).isSome := by
    intro st fuel hp
    rcases hmd : extractMetadata doc3 with e | md
    · rw [walkLoop, loopBody_metadataError oracle env st doc3 e (by rw [hp]; exact h3) hmd]
      rfl
    · obtain ⟨c, d⟩ := md
      rw [walkLoop, loopBody_emptyTitles oracle env st doc3 c d (by rw [hp]; exact h3) hmd hempty]
      rfl
  have hsome : (walkLoop oracle env 3 initState).isSome := by
    rw [walkLoop_succ oracle env 2 initState]
    cases hb1 : loopBody oracle env initState with
    | fatal e => rfl
    | brk st1 => rfl
    | cont st1 =>
      have hp1 : st1.pageNumber = 2 := loopBody_cont_pageNumber oracle env initState st1 hb1
      dsimp only
      rw [show walkLoop oracle env 2 st1 =
            (match loopBody oracle env st1 with
             | .fatal e => some (.error e)
             | .brk st2 => some (finalSave st2)
             | .cont st2 => walkLoop oracle env 1 st2) from walkLoop_succ oracle env 1 st1]
      cases hb2 : loopBody oracle env st1 with
      | fatal e => rfl
      | brk st2 => rfl
      | cont st2 =>
        have hp2 : st2.pageNumber = 3 := by
          rw [loopBody_cont_pageNumber oracle env st1 st2 hb2, hp1]
        exact hterm st2 0 hp2
  refine ⟨hsome, fun fuel hf => ?_⟩
  obtain ⟨r, hr⟩ := Option.isSome_iff_exists.mp hsome
  unfold scrape_auction_data
  rw [hr]
  exact walkLoop_mono oracle env 3 fuel initState r hr hf

def c4oracle : Nat → FetchResult := fun n =>
  .response 200
    { companyNameEl := some "Acme", firstParagraph := some "Date(s) 1/2/2024 - 1/9/2024",
      lotTitles := if n < 3 then ["lot"] else [] }

def c4env : PriceEnv :=
  { ebayPage := fun _ => .error ⟨"down"⟩, yahooPage := fun _ => .error ⟨"down"⟩ }

/-- Witness for C4: pages 1 and 2 have one lot each, page 3 is a success
with zero lots; the walk finishes within 3 iterations. -/
theorem C4_terminatesOnEmpty_witness :
    (scrape_auction_data c4oracle c4env 3).isSome ∧
    scrape_auction_data c4oracle c4env 10 = scrape_auction_data c4oracle c4env 3 := by
  have h := C4_terminatesOnEmpty c4oracle c4env
    { companyNameEl := some "Acme", firstParagraph := some "Date(s) 1/2/2024 - 1/9/2024",
      lotTitles := [] } rfl rfl
  exact ⟨h.1, h.2 10 (by decide)⟩

def c5env : PriceEnv :=
  { ebayPage := fun _ => .error ⟨"down"⟩, yahooPage := fun _ => .error ⟨"down"⟩ }

def c5oracle : Nat → FetchResult := fun n =>
  if n = 1 then
    .response 200 { companyNameEl := some "A",
                    firstParagraph := some "Date(s) 1/2/2024 - 1/9/2024", lotTitles := ["x"] }
  else
    .response 200 { companyNameEl := some "C",
                    firstParagraph := some "Date(s) 1/2/2024 - 1/9/2024", lotTitles := [] }

/-- Counterexample to C5 as stated: page 1 has company name "A", page 2
has company name "C" and ends the walk; the final report is written under
page 2's path, so the metadata is not carried forward from the first
page. -/
theorem C5_counterexample :
    scrape_auction_data c5oracle c5env 5 =
      some (.ok { pageNumber := 2,
                  itemsData := [{ title := "x", ebay_price := none, yahoo_price := none,
                                  weighted_average_price := none }],
                  savePath := some "HIBID_AUCTIONS/C_1_9_2024.xlsx",
                  written := [("HIBID_AUCTIONS/C_1_9_2024.xlsx",
                               [{ title := "x", ebay_price := none, yahoo_price := none,
                                  weighted_average_price := none }])] }) ∧
    ("HIBID_AUCTIONS/C_1_9_2024.xlsx" : String) ≠ "HIBID_AUCTIONS/A_1_9_2024.xlsx" := by
  constructor
  · with_unfolding_all decide
  · decide

/-- C5 amended: company name and end date are re-extracted from every
successfully fetched page, including the final empty one; the effective
save path at termination is the terminating page's, overriding whatever
earlier pages stored. -/
theorem C5_metadataReextracted_amended (oracle : Nat → FetchResult) (env : PriceEnv)
    (st : WalkState) (doc : AuctionDoc) (c d : String) (fuel : Nat)
    (h : oracle st.pageNumber = .response 200 doc)
    (hm : extractMetadata doc = .ok (c, d)) (he : doc.lotTitles = []) :
    walkLoop oracle env (fuel + 1) st =
      some (finalSave { st with savePath := some (savePathFor c d) }) := by
  rw [walkLoop, loopBody_emptyTitles oracle env st doc c d h hm he]

def c5wOracle : Nat → FetchResult := fun _ =>
  .response 200 { companyNameEl := some "C",
                  firstParagraph := some "Date(s) 1/2/2024 - 1/9/2024", lotTitles := [] }

def c5wSt : WalkState :=
  { pageNumber := 2, itemsData := [],
    savePath := some "HIBID_AUCTIONS/A_1_9_2024.xlsx", written := [] }

/-- Witness for the amended C5: a terminating page with company "C"
overrides a previously stored "A" path. -/
theorem C5_metadataReextracted_amended_witness :
    walkLoop c5wOracle c5env 1 c5wSt =
      some (finalSave { c5wSt with savePath := some (savePathFor "C" "1_9_2024") }) :=
  C5_metadataReextracted_amended c5wOracle c5env c5wSt _ "C" "1_9_2024" 0 rfl
    (by with_unfolding_all rfl) rfl

def c6env : PriceEnv :=
  { ebayPage := fun _ => .error ⟨"down"⟩, yahooPage := fun _ => .error ⟨"down"⟩ }

def c6oracle : Nat → FetchResult := fun _ => .transportError ⟨"connection reset"⟩

/-- Counterexample to C6 as stated: a transport error at the page fetch
does not terminate the walk cleanly; it propagates as an uncaught error
(and no final report write happens). -/
theorem C6_counterexample :
    scrape_auction_data c6oracle c6env 5 = some (.error .transport) := by
  with_unfolding_all decide

/-- C6 amended: a non-success status code is non-fatal and ends the walk
through the normal final-save path, but a transport error raised by the
page fetch is not caught in the walker: it propagates out as an error. -/
theorem C6_fetchFailure_amended (oracle : Nat → FetchResult) (env : PriceEnv)
    (st : WalkState) (fuel : Nat) :
    (∀ status doc, oracle st.pageNumber = .response status doc → status ≠ 200 →
      walkLoop oracle env (fuel + 1) st = some (finalSave st)) ∧
    (∀ e, oracle st.pageNumber = .transportError e →
      walkLoop oracle env (fuel + 1) st = some (.error .transport)) := by
  constructor
  · intro status doc h hs
    rw [walkLoop, loopBody_badStatus oracle env st status doc h hs]
  · intro e h
    rw [walkLoop, loopBody_transport oracle env st e h]

def c6wOracle : Nat → FetchResult := fun _ =>
  .response 404 { companyNameEl := none, firstParagraph := none, lotTitles := [] }

/-- Witness for the amended C6: a 404 ends the walk through the final
save; a transport error propagates as an error. -/
theorem C6_fetchFailure_amended_witness :
    walkLoop c6wOracle c6env 1 initState = some (finalSave initState) ∧
    walkLoop c6oracle c6env 1 initState = some (.error .transport) :=
  ⟨(C6_fetchFailure_amended c6wOracle c6env initState 0).1 404
      { companyNameEl := none, firstParagraph := none, lotTitles := [] } rfl (by decide),
   (C6_fetchFailure_amended c6oracle c6env initState 0).2 ⟨"connection reset"⟩ rfl⟩

def c8env : PriceEnv :=
  { ebayPage := fun _ => .error ⟨"down"⟩, yahooPage := fun _ => .error ⟨"down"⟩ }

def c8oracle : Nat → FetchResult := fun _ =>
  .response 500 { companyNameEl := none, firstParagraph := none, lotTitles := [] }

/-- Counterexample to C8 as stated: when the very first fetch fails, the
"unconditional" final save crashes on the unbound local `save_path`
instead of writing a report. -/
theorem C8_counterexample :
    scrape_auction_data c8oracle c8env 5 = some (.error .nameError) := by
  with_unfolding_all decide

/-- C8 amended: a snapshot is written after every 3rd completed page and
not after others, and once more at termination whenever the walk
terminates cleanly, the last write holding exactly the accumulated data,
sorted; but the final write is not unconditional: a fetch failure before
any page has set the save path aborts with an unbound-variable error and
nothing is written. -/
theorem C8_snapshotSchedule_amended (oracle : Nat → FetchResult) (env : PriceEnv) :
    (∀ st doc c d, oracle st.pageNumber = .response 200 doc →
        extractMetadata doc = .ok (c, d) → doc.lotTitles.isEmpty = false →
        st.pageNumber % 3 = 0 →
        ∃ st1, loopBody oracle env st = .cont st1 ∧
          st1.written = st.written ++
            [(savePathFor c d, List.insertionSort pandasLE st1.itemsData)]) ∧
    (∀ st doc c d, oracle st.pageNumber = .response 200 doc →
        extractMetadata doc = .ok (c, d) → doc.lotTitles.isEmpty = false →
        st.pageNumber % 3 ≠ 0 →
        ∃ st1, loopBody oracle env st = .cont st1 ∧ st1.written = st.written) ∧
    (∀ fuel st st1, walkLoop oracle env fuel st = some (.ok st1) →
        ∃ sp, st1.savePath = some sp ∧
          st1.written.getLast? = some (sp, List.insertionSort pandasLE st1.itemsData)) ∧
    (∀ fuel st status doc, st.savePath = none →
        oracle st.pageNumber = .response status doc → status ≠ 200 →
        walkLoop oracle env (fuel + 1) st = some (.error .nameError)) := by
  refine ⟨?_, ?_, walkLoop_ok_lastWrite oracle env, ?_⟩
  · intro st doc c d h hm hne hmod
    refine ⟨_, loopBody_nonempty oracle env st doc c d h hm hne, ?_⟩
    have h3 : (st.pageNumber % 3 == 0) = true := by simp [hmod]
    dsimp only
    rw [if_pos h3]
    rfl
  · intro st doc c d h hm hne hmod
    refine ⟨_, loopBody_nonempty oracle env st doc c d h hm hne, ?_⟩
    have h3 : (st.pageNumber % 3 == 0) = false := by simp [hmod]
    dsimp only
    rw [if_neg (by rw [h3]; exact Bool.false_ne_true)]
  · intro fuel st status doc hsp h hs
    rw [walkLoop, loopBody_badStatus oracle env st status doc h hs]
    simp [finalSave, hsp]

def c8wOracle : Nat → FetchResult := fun n =>
  .response 200
    { companyNameEl := some "A", firstParagraph := some "Date(s) 1/2/2024 - 1/9/2024",
      lotTitles := if n ≤ 3 then ["x"] else [] }

def c8wSt3 : WalkState :=
  { pageNumber := 3, itemsData := [], savePath := none, written := [] }

def c8wSt1 : WalkState :=
  { pageNumber := 1, itemsData := [], savePath := none, written := [] }

def c8wSt4 : WalkState :=
  { pageNumber := 4, itemsData := [], savePath := some "p", written := [] }

/-- Witness for the amended C8, exercising all four conjuncts at concrete
states: a write after page 3, no write after page 1, a final write on
clean termination, and the unbound-path abort on a failed first fetch. -/
theorem C8_snapshotSchedule_amended_witness :
    (∃ st1, loopBody c8wOracle c8env c8wSt3 = .cont st1 ∧
       st1.written = c8wSt3.written ++
         [(savePathFor "A" "1_9_2024", List.insertionSort pandasLE st1.itemsData)]) ∧
    (∃ st1, loopBody c8wOracle c8env c8wSt1 = .cont st1 ∧ st1.written = c8wSt1.written) ∧
    (∃ sp, ({ pageNumber := 4, itemsData := [],
              savePath := some "HIBID_AUCTIONS/A_1_9_2024.xlsx",
              written := [("HIBID_AUCTIONS/A_1_9_2024.xlsx", [])] } : WalkState).savePath =
        some sp ∧
      ({ pageNumber := 4, itemsData := [],
         savePath := some "HIBID_AUCTIONS/A_1_9_2024.xlsx",
         written := [("HIBID_AUCTIONS/A_1_9_2024.xlsx", [])] } : WalkState).written.getLast? =
        some (sp, List.insertionSort pandasLE [])) ∧
    walkLoop c8oracle c8env 1 c8wSt1 = some (.error .nameError) := by
  have h := C8_snapshotSchedule_amended c8wOracle c8env
  have h' := C8_snapshotSchedule_amended c8oracle c8env
  refine ⟨h.1 c8wSt3 _ "A" "1_9_2024" rfl (by with_unfolding_all rfl) rfl (by decide),
    h.2.1 c8wSt1 _ "A" "1_9_2024" rfl (by with_unfolding_all rfl) rfl (by decide),
    h.2.2.1 1 c8wSt4 _ (by with_unfolding_all decide),
    h'.2.2.2 0 c8wSt1 500 { companyNameEl := none, firstParagraph := none, lotTitles := [] }
      rfl rfl (by decide)⟩

/-- Counterexample to C9 as stated: taking a report snapshot reorders the
accumulated list in place (here from [10, 5] to [5, 10] by estimate). -/
theorem C9_counterexample :
    (save_items_to_excel
        [{ title := "b", ebay_price := none, yahoo_price := none,
           weighted_average_price := some 10 },
         { title := "a", ebay_price := none, yahoo_price := none,
           weighted_average_price := some 5 }]).1 ≠
      [{ title := "b", ebay_price := none, yahoo_price := none,
         weighted_average_price := some 10 },
       { title := "a", ebay_price := none, yahoo_price := none,
         weighted_average_price := some 5 }] := by
  with_unfolding_all decide

/-- C9 amended: a report snapshot sorts the accumulated list in place
(stable, ascending by weighted estimate with absent estimates last) but
neither removes, adds, nor modifies any record: the result is exactly the
stable sort of the input, a permutation of it, with every fixed-estimate
class kept in its original relative order. -/
theorem C9_appendAndSortOnly_amended (items : List ItemRecord) :
    (save_items_to_excel items).1 = List.insertionSort sortKeyLE items ∧
    ((save_items_to_excel items).1).Perm items ∧
    ∀ v : Option ℚ,
      ((save_items_to_excel items).1).filter
          (fun r => decide (r.weighted_average_price = v)) =
        items.filter (fun r => decide (r.weighted_average_price = v)) :=
  ⟨rfl, List.perm_insertionSort sortKeyLE items,
    fun _ => filter_insertionSort sortKeyLE _
      (fun x y hx hy => sortKeyLE_of_keyEq x y hx hy) items⟩

end HIBID
